import Mathlib

/-!
Verification of the Rename-Kit consistency-audit engine (`src/code.js`).

The plugin code is shallowly embedded: Figma scene nodes become a tree of
`NodeData` records, the host's style/variable resolvers become pure maps
`String → Option _`, in-place name mutation becomes structure update, and
the observable host calls (`figma.notify`, selection assignment,
`figma.closePlugin`, viewport scroll) become an explicit effect trace.
-/

/-- Scene-node fields the audit reads or writes.  `textStyleId` and
`fillStyleId` are `none` when the host field is absent or not a string
(e.g. the mixed-style symbol); the empty string models the host's
falsy empty id.  `boundFillVars` is the list of ids in
`node.boundVariables['fills']` (empty when the property is absent). -/
structure NodeData where
  id : Nat
  type : String
  visible : Bool
  name : String
  textStyleId : Option String
  fillStyleId : Option String
  boundFillVars : List String
  deriving DecidableEq, Repr

/-- Nodes are modeled as a data record plus a child list; leaf kinds
(such as text nodes) simply carry an empty list. -/
inductive Node where
  | mk : NodeData → List Node → Node

/-- Data record of a node. -/
def ndata : Node → NodeData
  | .mk d _ => d

/-- Children of a node. -/
def nchildren : Node → List Node
  | .mk _ cs => cs

/-- A resolved style object (`figma.getStyleById`): its `type` and `name`. -/
structure StyleRecord where
  type : String
  name : String
  deriving DecidableEq, Repr

/-- A resolved variable object (`figma.variables.getVariableByIdAsync`). -/
structure VariableRecord where
  name : String
  deriving DecidableEq, Repr

/-- The two opaque host resolvers.  `none` models a null / not-found /
rejected resolution. -/
structure Resolvers where
  getStyle : String → Option StyleRecord
  getVariable : String → Option VariableRecord

/-- JavaScript truthiness of an optional string id: absent and `""` are
falsy (`textNode.textStyleId && typeof textNode.textStyleId === 'string'`). -/
def truthy : Option String → Option String
  | some s => if s = "" then none else some s
  | none => none

/-- Decimal digit, as matched by the regex class in `/^Frame( \d+)?$/`. -/
def isDigitChar (c : Char) : Bool :=
  decide ('0' ≤ c) && decide (c ≤ '9')

/-- The default-frame-name test `/^Frame( \d+)?$/.test(name)`. -/
def matchesDefaultFrameName (s : String) : Bool :=
  match s.data with
  | 'F' :: 'r' :: 'a' :: 'm' :: 'e' :: rest =>
    match rest with
    | [] => true
    | ' ' :: ds => !ds.isEmpty && ds.all isDigitChar
    | _ => false
  | _ => false

/-- Category table `categories` from the source. -/
def categories : List (String × String) :=
  [("heading", "heading-text"),
   ("title", "title-text"),
   ("subtitle", "subtitle-text"),
   ("body", "body-text"),
   ("highlighted", "highlighted-text"),
   ("info", "info-text"),
   ("caption", "caption-text"),
   ("overline", "overline-text")]

/-- One entry of `styleCategories`: canonical layer name plus permitted
color identifiers. -/
structure CategoryMapping where
  newName : String
  color : List String
  deriving DecidableEq, Repr

/-- State colors valid for any text style (`stateColors`). -/
def stateColors : List String :=
  ["colors/state/info",
   "colors/state/success",
   "colors/state/warning",
   "colors/state/error",
   "colors/content/text/regular/disabled"]

/-- The `styleCategories` table as built by the loop over `categories`:
the "highlighted" category gets the brand path, others the regular path,
and each also gets the inverse path. -/
def styleCategories (key : String) : Option CategoryMapping :=
  (categories.lookup key).map (fun newName =>
    { newName := newName
      color :=
        if key = "highlighted" then
          ["colors/content/text/brand/" ++ key, "colors/content/text/inverse/" ++ key]
        else
          ["colors/content/text/regular/" ++ key, "colors/content/text/inverse/" ++ key] })

/-- First path segment of a style name, `style.name.split('/')[0]`. -/
def takeUntilSlash : List Char → List Char
  | [] => []
  | c :: cs => if c = '/' then [] else c :: takeUntilSlash cs

/-- Category key of a style name. -/
def categoryKey (s : String) : String :=
  ⟨takeUntilSlash s.data⟩

mutual
/-- `findAllTextNodes` from the source: skip hidden subtrees, collect a
text node itself, otherwise recurse into children. -/
def findAllTextNodes : Node → List Node
  | .mk d cs =>
    if d.visible = false then []
    else if d.type = "TEXT" then [Node.mk d cs]
    else findAllTextNodesList cs

/-- Concatenation of `findAllTextNodes` over a child list. -/
def findAllTextNodesList : List Node → List Node
  | [] => []
  | c :: cs => findAllTextNodes c ++ findAllTextNodesList cs
end

mutual
/-- `renameDefaultFramesRecursivelyWithCount` from the source: skip hidden
subtrees; rename a visible frame whose name matches the default pattern
to "item", counting it; recurse into children. -/
def renameFrames : Node → Node × Nat
  | .mk d cs =>
    if d.visible = false then (Node.mk d cs, 0)
    else
      let hit := d.type = "FRAME" ∧ matchesDefaultFrameName d.name = true
      let d' := if hit then { d with name := "item" } else d
      let r := renameFramesList cs
      (Node.mk d' r.1, (if hit then 1 else 0) + r.2)

/-- `renameFrames` over a child list, summing the counts. -/
def renameFramesList : List Node → List Node × Nat
  | [] => ([], 0)
  | c :: cs =>
    let r := renameFrames c
    let rs := renameFramesList cs
    (r.1 :: rs.1, r.2 + rs.2)
end

/-- Container node types expanded by the collection loop. -/
def isContainerType (t : String) : Bool :=
  t = "FRAME" || t = "GROUP" || t = "COMPONENT" || t = "INSTANCE" || t = "SECTION"

/-- The collection loop building `nodesToCheck`: containers are expanded
with `findAllTextNodes`, a text node in the selection is pushed directly
(with no visibility check), all other roots are ignored. -/
def collectTextNodes : List Node → List Node
  | [] => []
  | node :: rest =>
    (if isContainerType (ndata node).type then findAllTextNodes node
     else if (ndata node).type = "TEXT" then [node]
     else []) ++ collectTextNodes rest

/-- The memoization table `styleCache`: id to cached resolution
(a cached `none` records a null style). -/
abbrev Cache : Type := List (String × Option StyleRecord)

/-- One `styleCache` access: return the cached record, or resolve once,
record the request and fill the cache. -/
def cachedLookup (env : Resolvers) (c : Cache) (reqs : List String) (id : String) :
    Option StyleRecord × Cache × List String :=
  match List.lookup id c with
  | some v => (v, c, reqs)
  | none =>
    let v := env.getStyle id
    (v, (id, v) :: c, reqs ++ [id])

/-- A text node staged for the color audit, paired with its mapping
(one element of `nodesForColorCheck`). -/
structure Staged where
  node : NodeData
  mapping : CategoryMapping
  deriving DecidableEq, Repr

/-- State threaded through the first (classification) pass. -/
structure ClassState where
  cache : Cache
  styleRequests : List String
  renamedCount : Nat
  staged : List Staged

/-- One iteration of the first pass: look up the text style through the
cache; if it is a text style whose category is mapped, rename the node to
the canonical name when it differs (counting the rename) and stage it. -/
def classifyStep (env : Resolvers) (st : ClassState) (d : NodeData) : ClassState :=
  match truthy d.textStyleId with
  | some sid =>
    let r := cachedLookup env st.cache st.styleRequests sid
    let st1 : ClassState := { st with cache := r.2.1, styleRequests := r.2.2 }
    match r.1 with
    | some style =>
      if style.type = "TEXT" then
        match styleCategories (categoryKey style.name) with
        | some mapping =>
          if d.name = mapping.newName then
            { st1 with staged := st1.staged ++ [⟨d, mapping⟩] }
          else
            { st1 with renamedCount := st1.renamedCount + 1,
                       staged := st1.staged ++ [⟨{ d with name := mapping.newName }, mapping⟩] }
        | none => st1
      else st1
    | none => st1
  | none => st

/-- State threaded through the second (color-audit) pass. -/
structure AuditState where
  cache : Cache
  styleRequests : List String
  varRequests : List String
  mismatched : List NodeData

/-- One audit callback: a first bound fill variable, when present, is
resolved (always issuing a request) and decides alone; only a node with
no bound fill variable falls back to its fill style, resolved through the
shared style cache. -/
def auditStep (env : Resolvers) (st : AuditState) (s : Staged) : AuditState :=
  match s.node.boundFillVars with
  | v :: _ =>
    let st1 : AuditState := { st with varRequests := st.varRequests ++ [v] }
    match env.getVariable v with
    | some vr =>
      if vr.name ∈ s.mapping.color ∨ vr.name ∈ stateColors then st1
      else { st1 with mismatched := st1.mismatched ++ [s.node] }
    | none => { st1 with mismatched := st1.mismatched ++ [s.node] }
  | [] =>
    match truthy s.node.fillStyleId with
    | some fid =>
      let r := cachedLookup env st.cache st.styleRequests fid
      let st1 : AuditState := { st with cache := r.2.1, styleRequests := r.2.2 }
      match r.1 with
      | some fs =>
        if fs.name ∈ s.mapping.color ∨ fs.name ∈ stateColors then st1
        else { st1 with mismatched := st1.mismatched ++ [s.node] }
      | none => { st1 with mismatched := st1.mismatched ++ [s.node] }
    | none => { st with mismatched := st.mismatched ++ [s.node] }

/-- Observable host calls made during one run. -/
inductive Effect where
  | notify (msg : String)
  | setSelection (ids : List Nat)
  | scrollIntoView (ids : List Nat)
  | closePlugin
  deriving DecidableEq, Repr

/-- Classification outcome of one node, read off the resolver directly
(the cache is write-once from the resolver, so the cached pass computes
exactly this). -/
def classifyData (env : Resolvers) (d : NodeData) : Option CategoryMapping :=
  match truthy d.textStyleId with
  | some sid =>
    match env.getStyle sid with
    | some style =>
      if style.type = "TEXT" then styleCategories (categoryKey style.name) else none
    | none => none
  | none => none

/-- The name mutation the first pass performs on one node. -/
def renameData (env : Resolvers) (d : NodeData) : NodeData :=
  match classifyData env d with
  | some m => { d with name := m.newName }
  | none => d

mutual
/-- Reflection into the tree of the first pass's in-place text renames:
exactly the nodes `findAllTextNodes` reaches are renamed. -/
def renameTextTree (env : Resolvers) : Node → Node
  | .mk d cs =>
    if d.visible = false then Node.mk d cs
    else if d.type = "TEXT" then Node.mk (renameData env d) cs
    else Node.mk d (renameTextTreeList env cs)

/-- `renameTextTree` over a child list. -/
def renameTextTreeList (env : Resolvers) : List Node → List Node
  | [] => []
  | c :: cs => renameTextTree env c :: renameTextTreeList env cs
end

/-- Text renames as seen from a selection root: containers are renamed in
their visible scope, a directly selected text node is renamed
unconditionally, other roots are untouched — mirroring the collection
loop. -/
def renameTextRoot (env : Resolvers) (n : Node) : Node :=
  if isContainerType (ndata n).type then renameTextTree env n
  else if (ndata n).type = "TEXT" then Node.mk (renameData env (ndata n)) (nchildren n)
  else n

/-- Selection after the frame-renaming loop. -/
def frameRenamedSel (sel : List Node) : List Node :=
  sel.map (fun t => (renameFrames t).1)

/-- Total `frameRenamedCount` over the selection. -/
def fcountOf (sel : List Node) : Nat :=
  (sel.map (fun t => (renameFrames t).2)).sum

/-- The `nodesToCheck` list of a run (collection happens after the frame
renames). -/
def collectedOf (sel : List Node) : List Node :=
  collectTextNodes (frameRenamedSel sel)

/-- Pluralized frame-rename summary part. -/
def frameMsg (n : Nat) : String :=
  toString n ++ " frame layer" ++ (if n = 1 then "" else "s") ++ " renamed to 'item'"

/-- Pluralized text-rename summary part. -/
def textMsg (n : Nat) : String :=
  toString n ++ " text layer" ++ (if n = 1 then "" else "s") ++ " renamed"

/-- Pluralized mismatch summary part. -/
def mismatchMsg (n : Nat) : String :=
  toString n ++ " mismatched layer" ++ (if n = 1 then "" else "s") ++ " selected"

/-- Result of one run of `renameAndCheckColors`. -/
structure RunResult where
  selection : List Node
  frameRenamedCount : Nat
  renamedCount : Nat
  staged : List Staged
  mismatched : List NodeData
  styleRequests : List String
  varRequests : List String
  effects : List Effect

/-- The whole `renameAndCheckColors` run: validate the selection, rename
default frames, collect text nodes, classify and rename them, audit
colors, then report. -/
def runAudit (env : Resolvers) (sel : List Node) : RunResult :=
  if sel.length = 0 then
    { selection := sel, frameRenamedCount := 0, renamedCount := 0, staged := [], mismatched := []
      styleRequests := [], varRequests := []
      effects := [.notify "Please select at least one frame or text layer.", .closePlugin] }
  else
    let sel1 := frameRenamedSel sel
    let fcount := fcountOf sel
    let collected := collectTextNodes sel1
    if collected.length = 0 then
      { selection := sel1, frameRenamedCount := fcount, renamedCount := 0, staged := []
        mismatched := [], styleRequests := [], varRequests := []
        effects := [.notify "No text layers found in selection.", .closePlugin] }
    else
      let cst := (collected.map ndata).foldl (classifyStep env)
        { cache := [], styleRequests := [], renamedCount := 0, staged := [] }
      let sel2 := sel1.map (renameTextRoot env)
      let ast := cst.staged.foldl (auditStep env)
        { cache := cst.cache, styleRequests := cst.styleRequests, varRequests := [], mismatched := [] }
      let mm := ast.mismatched
      let parts :=
        (if 0 < fcount then [frameMsg fcount] else []) ++
        (if 0 < cst.renamedCount then [textMsg cst.renamedCount] else []) ++
        (if 0 < mm.length then [mismatchMsg mm.length] else [])
      let parts := if parts.length = 0 then ["✨ Everything is perfect"] else parts
      { selection := sel2, frameRenamedCount := fcount, renamedCount := cst.renamedCount
        staged := cst.staged, mismatched := mm
        styleRequests := ast.styleRequests, varRequests := ast.varRequests
        effects :=
          (if 0 < mm.length then
            [.setSelection (mm.map (fun d => d.id)), .scrollIntoView (mm.map (fun d => d.id))]
           else []) ++
          [.notify (String.intercalate "; " parts ++ "."), .closePlugin] }

/-- One color-audit check, read off the resolvers directly: the value of
`isColorCorrect` for a staged node. -/
def checkColor (env : Resolvers) (m : CategoryMapping) (d : NodeData) : Bool :=
  match d.boundFillVars with
  | v :: _ =>
    match env.getVariable v with
    | some vr => decide (vr.name ∈ m.color ∨ vr.name ∈ stateColors)
    | none => false
  | [] =>
    match truthy d.fillStyleId with
    | some fid =>
      match env.getStyle fid with
      | some fs => decide (fs.name ∈ m.color ∨ fs.name ∈ stateColors)
      | none => false
    | none => false

/-- The color identifier determined for a staged node: the resolved
variable name when a first bound fill variable exists, otherwise the
resolved fill-style name, otherwise nothing. -/
def determineColorId (env : Resolvers) (d : NodeData) : Option String :=
  match d.boundFillVars with
  | v :: _ => (env.getVariable v).map (fun vr => vr.name)
  | [] =>
    match truthy d.fillStyleId with
    | some fid => (env.getStyle fid).map (fun fs => fs.name)
    | none => none

/-- The staged list produced by the first pass over a node list. -/
def stagedPure (env : Resolvers) (ds : List NodeData) : List Staged :=
  ds.filterMap (fun d => (classifyData env d).map (fun m => ⟨{ d with name := m.newName }, m⟩))

/-- The text-rename count produced by the first pass over a node list. -/
def renamedCountPure (env : Resolvers) (ds : List NodeData) : Nat :=
  (ds.map (fun d =>
    match classifyData env d with
    | some m => if d.name = m.newName then 0 else 1
    | none => 0)).sum

/-- The not-ok staged nodes, in staged order. -/
def mismatchedPure (env : Resolvers) (staged : List Staged) : List NodeData :=
  (staged.filter (fun s => !checkColor env s.mapping s.node)).map (fun s => s.node)

/-- Every cache entry records the resolver's answer for its key. -/
def CacheOK (env : Resolvers) (c : Cache) : Prop :=
  ∀ p ∈ c, env.getStyle p.1 = p.2

theorem lookup_mem {c : Cache} {id : String} {v : Option StyleRecord}
    (h : List.lookup id c = some v) : (id, v) ∈ c := by
  induction c with
  | nil => simp [List.lookup] at h
  | cons p rest ih =>
    obtain ⟨k, b⟩ := p
    unfold List.lookup at h
    cases hbe : id == k with
    | true =>
      rw [hbe] at h
      have hk : id = k := eq_of_beq hbe
      have hv : b = v := by simpa using h
      subst hk; subst hv
      exact List.mem_cons_self _ _
    | false =>
      rw [hbe] at h
      exact List.mem_cons_of_mem _ (ih h)

theorem cachedLookup_val {env : Resolvers} {c : Cache} {reqs : List String} {id : String}
    (h : CacheOK env c) : (cachedLookup env c reqs id).1 = env.getStyle id := by
  unfold cachedLookup
  cases hl : List.lookup id c with
  | none => rfl
  | some v => exact (h _ (lookup_mem hl)).symm

theorem cachedLookup_cacheOK {env : Resolvers} {c : Cache} {reqs : List String} {id : String}
    (h : CacheOK env c) : CacheOK env (cachedLookup env c reqs id).2.1 := by
  unfold cachedLookup
  cases hl : List.lookup id c with
  | none =>
    intro p hp
    rcases List.mem_cons.mp hp with h1 | h1
    · rw [h1]
    · exact h _ h1
  | some v => exact h

/-- Structure eta for a trivial name update. -/
theorem nameUpdate_self (d : NodeData) : { d with name := d.name } = d := by
  cases d; rfl

theorem classifyStep_spec (env : Resolvers) (st : ClassState) (d : NodeData)
    (h : CacheOK env st.cache) :
    (classifyStep env st d).staged = st.staged ++
      (match classifyData env d with
       | some m => [⟨{ d with name := m.newName }, m⟩]
       | none => []) ∧
    (classifyStep env st d).renamedCount = st.renamedCount +
      (match classifyData env d with
       | some m => if d.name = m.newName then 0 else 1
       | none => 0) ∧
    CacheOK env (classifyStep env st d).cache := by
  cases ht : truthy d.textStyleId with
  | none => simp [classifyStep, classifyData, ht, h]
  | some sid =>
    have hval : (cachedLookup env st.cache st.styleRequests sid).1 = env.getStyle sid :=
      cachedLookup_val h
    have hok : CacheOK env (cachedLookup env st.cache st.styleRequests sid).2.1 :=
      cachedLookup_cacheOK h
    cases hs : env.getStyle sid with
    | none => simp [classifyStep, classifyData, ht, hval, hs, hok]
    | some style =>
      by_cases hty : style.type = "TEXT"
      · cases hm : styleCategories (categoryKey style.name) with
        | none => simp [classifyStep, classifyData, ht, hval, hs, hty, hm, hok]
        | some mapping =>
          by_cases hn : d.name = mapping.newName
          · have hup : ({ d with name := mapping.newName } : NodeData) = d := by
              rw [← hn]
            simp [classifyStep, classifyData, ht, hval, hs, hty, hm, hn, hok, hup]
          · simp [classifyStep, classifyData, ht, hval, hs, hty, hm, hn, hok]
      · simp [classifyStep, classifyData, ht, hval, hs, hty, hok]

theorem classifyFold_spec (env : Resolvers) (ds : List NodeData) :
    ∀ (st : ClassState), CacheOK env st.cache →
      (ds.foldl (classifyStep env) st).staged = st.staged ++ stagedPure env ds ∧
      (ds.foldl (classifyStep env) st).renamedCount = st.renamedCount + renamedCountPure env ds ∧
      CacheOK env (ds.foldl (classifyStep env) st).cache := by
  induction ds with
  | nil => intro st h; simp [stagedPure, renamedCountPure, h]
  | cons d rest ih =>
    intro st h
    obtain ⟨h1, h2, h3⟩ := classifyStep_spec env st d h
    obtain ⟨g1, g2, g3⟩ := ih (classifyStep env st d) h3
    refine ⟨?_, ?_, by simpa using g3⟩
    · rw [List.foldl_cons, g1, h1]
      simp only [stagedPure, List.filterMap_cons]
      cases classifyData env d <;> simp
    · rw [List.foldl_cons, g2, h2]
      simp only [renamedCountPure, List.map_cons, List.sum_cons]
      cases classifyData env d
      · simp
      · omega

theorem auditStep_spec (env : Resolvers) (st : AuditState) (s : Staged)
    (h : CacheOK env st.cache) :
    (auditStep env st s).mismatched = st.mismatched ++
      (if checkColor env s.mapping s.node then [] else [s.node]) ∧
    CacheOK env (auditStep env st s).cache := by
  cases hbv : s.node.boundFillVars with
  | cons v rest =>
    cases hv : env.getVariable v with
    | some vr =>
      by_cases hp : vr.name ∈ s.mapping.color ∨ vr.name ∈ stateColors
      · simp [auditStep, checkColor, hbv, hv, hp, h]
      · simp [auditStep, checkColor, hbv, hv, hp, h]
    | none => simp [auditStep, checkColor, hbv, hv, h]
  | nil =>
    cases hf : truthy s.node.fillStyleId with
    | none => simp [auditStep, checkColor, hbv, hf, h]
    | some fid =>
      have hval : (cachedLookup env st.cache st.styleRequests fid).1 = env.getStyle fid :=
        cachedLookup_val h
      have hok : CacheOK env (cachedLookup env st.cache st.styleRequests fid).2.1 :=
        cachedLookup_cacheOK h
      cases hs : env.getStyle fid with
      | none => simp [auditStep, checkColor, hbv, hf, hval, hs, hok]
      | some fs =>
        by_cases hp : fs.name ∈ s.mapping.color ∨ fs.name ∈ stateColors
        · simp [auditStep, checkColor, hbv, hf, hval, hs, hp, hok]
        · simp [auditStep, checkColor, hbv, hf, hval, hs, hp, hok]

theorem auditFold_spec (env : Resolvers) (staged : List Staged) :
    ∀ (st : AuditState), CacheOK env st.cache →
      (staged.foldl (auditStep env) st).mismatched = st.mismatched ++ mismatchedPure env staged ∧
      CacheOK env (staged.foldl (auditStep env) st).cache := by
  induction staged with
  | nil => intro st h; simp [mismatchedPure, h]
  | cons s rest ih =>
    intro st h
    obtain ⟨h1, h2⟩ := auditStep_spec env st s h
    obtain ⟨g1, g2⟩ := ih (auditStep env st s) h2
    refine ⟨?_, by simpa using g2⟩
    rw [List.foldl_cons, g1, h1]
    simp only [mismatchedPure, List.filter_cons]
    cases hc : checkColor env s.mapping s.node <;> simp

/-- Request log invariant: no id requested twice, and every requested id
is already cached. -/
def ReqInv (c : Cache) (reqs : List String) : Prop :=
  reqs.Nodup ∧ ∀ r ∈ reqs, (List.lookup r c).isSome = true

theorem lookup_cons_self (id : String) (v : Option StyleRecord) (c : Cache) :
    List.lookup id ((id, v) :: c) = some v := by
  show (match id == id with | true => some v | false => List.lookup id c) = some v
  rw [beq_self_eq_true]

theorem lookup_cons_other {r id : String} (hne : r ≠ id) (v : Option StyleRecord) (c : Cache) :
    List.lookup r ((id, v) :: c) = List.lookup r c := by
  have hbe : (r == id) = false := beq_eq_false_iff_ne.mpr hne
  show (match r == id with | true => some v | false => List.lookup r c) = List.lookup r c
  rw [hbe]

theorem cachedLookup_reqInv {env : Resolvers} {c : Cache} {reqs : List String} (id : String)
    (h : ReqInv c reqs) :
    ReqInv (cachedLookup env c reqs id).2.1 (cachedLookup env c reqs id).2.2 := by
  obtain ⟨hnd, hmem⟩ := h
  unfold cachedLookup
  cases hl : List.lookup id c with
  | some v => exact ⟨hnd, hmem⟩
  | none =>
    have hnotin : id ∉ reqs := by
      intro hin
      have := hmem id hin
      rw [hl] at this
      simp at this
    constructor
    · simp [List.Nodup, List.pairwise_append]
      constructor
      · exact hnd
      · intro a ha
        intro he; exact hnotin (he ▸ ha)
    · intro r hr
      rcases List.mem_append.mp hr with h1 | h1
      · by_cases he : r = id
        · subst he; rw [lookup_cons_self]; rfl
        · rw [lookup_cons_other he]; exact hmem r h1
      · have : r = id := by simpa using h1
        subst this; rw [lookup_cons_self]; rfl

theorem classifyStep_reqInv (env : Resolvers) (st : ClassState) (d : NodeData)
    (h : ReqInv st.cache st.styleRequests) :
    ReqInv (classifyStep env st d).cache (classifyStep env st d).styleRequests := by
  cases ht : truthy d.textStyleId with
  | none => simpa [classifyStep, ht] using h
  | some sid =>
    have key := @cachedLookup_reqInv env st.cache st.styleRequests sid h
    cases hs : (cachedLookup env st.cache st.styleRequests sid).1 with
    | none => simpa [classifyStep, ht, hs] using key
    | some style =>
      by_cases hty : style.type = "TEXT"
      · cases hm : styleCategories (categoryKey style.name) with
        | none => simpa [classifyStep, ht, hs, hty, hm] using key
        | some mapping =>
          by_cases hn : d.name = mapping.newName <;>
            simpa [classifyStep, ht, hs, hty, hm, hn] using key
      · simpa [classifyStep, ht, hs, hty] using key

theorem auditStep_reqInv (env : Resolvers) (st : AuditState) (s : Staged)
    (h : ReqInv st.cache st.styleRequests) :
    ReqInv (auditStep env st s).cache (auditStep env st s).styleRequests := by
  cases hbv : s.node.boundFillVars with
  | cons v rest =>
    cases hv : env.getVariable v with
    | some vr =>
      by_cases hp : vr.name ∈ s.mapping.color ∨ vr.name ∈ stateColors <;>
        simpa [auditStep, hbv, hv, hp] using h
    | none => simpa [auditStep, hbv, hv] using h
  | nil =>
    cases hf : truthy s.node.fillStyleId with
    | none => simpa [auditStep, hbv, hf] using h
    | some fid =>
      have key := @cachedLookup_reqInv env st.cache st.styleRequests fid h
      cases hs : (cachedLookup env st.cache st.styleRequests fid).1 with
      | none => simpa [auditStep, hbv, hf, hs] using key
      | some fs =>
        by_cases hp : fs.name ∈ s.mapping.color ∨ fs.name ∈ stateColors <;>
          simpa [auditStep, hbv, hf, hs, hp] using key

theorem classifyFold_reqInv (env : Resolvers) (ds : List NodeData) :
    ∀ (st : ClassState), ReqInv st.cache st.styleRequests →
      ReqInv (ds.foldl (classifyStep env) st).cache
        (ds.foldl (classifyStep env) st).styleRequests := by
  induction ds with
  | nil => intro st h; simpa using h
  | cons d rest ih =>
    intro st h
    rw [List.foldl_cons]
    exact ih _ (classifyStep_reqInv env st d h)

theorem auditFold_reqInv (env : Resolvers) (staged : List Staged) :
    ∀ (st : AuditState), ReqInv st.cache st.styleRequests →
      ReqInv (staged.foldl (auditStep env) st).cache
        (staged.foldl (auditStep env) st).styleRequests := by
  induction staged with
  | nil => intro st h; simpa using h
  | cons s rest ih =>
    intro st h
    rw [List.foldl_cons]
    exact ih _ (auditStep_reqInv env st s h)

theorem cacheOK_nil (env : Resolvers) : CacheOK env ([] : Cache) := by
  intro p hp; simp at hp

theorem reqInv_nil : ReqInv ([] : Cache) [] := by
  constructor
  · exact List.nodup_nil
  · intro r hr; simp at hr

theorem runAudit_empty (env : Resolvers) (sel : List Node) (h : sel.length = 0) :
    runAudit env sel =
      { selection := sel, frameRenamedCount := 0, renamedCount := 0, staged := []
        mismatched := [], styleRequests := [], varRequests := []
        effects := [.notify "Please select at least one frame or text layer.", .closePlugin] } := by
  simp [runAudit, h]

theorem runAudit_noText (env : Resolvers) (sel : List Node) (h : ¬ sel.length = 0)
    (h2 : (collectedOf sel).length = 0) :
    runAudit env sel =
      { selection := frameRenamedSel sel, frameRenamedCount := fcountOf sel, renamedCount := 0
        staged := [], mismatched := [], styleRequests := [], varRequests := []
        effects := [.notify "No text layers found in selection.", .closePlugin] } := by
  have h2' : (collectTextNodes (frameRenamedSel sel)).length = 0 := by
    simpa [collectedOf] using h2
  simp [runAudit, h, h2']

theorem runAudit_main (env : Resolvers) (sel : List Node) (h : ¬ sel.length = 0)
    (h2 : ¬ (collectedOf sel).length = 0) :
    (runAudit env sel).selection = (frameRenamedSel sel).map (renameTextRoot env) ∧
    (runAudit env sel).frameRenamedCount = fcountOf sel ∧
    (runAudit env sel).renamedCount = renamedCountPure env ((collectedOf sel).map ndata) ∧
    (runAudit env sel).staged = stagedPure env ((collectedOf sel).map ndata) ∧
    (runAudit env sel).mismatched =
      mismatchedPure env (stagedPure env ((collectedOf sel).map ndata)) := by
  have h2' : ¬ (collectTextNodes (frameRenamedSel sel)).length = 0 := by
    simpa [collectedOf] using h2
  obtain ⟨hst, hrc, hcok⟩ := classifyFold_spec env ((collectTextNodes (frameRenamedSel sel)).map ndata)
    { cache := [], styleRequests := [], renamedCount := 0, staged := [] } (cacheOK_nil env)
  obtain ⟨hmm, _⟩ := auditFold_spec env
    (stagedPure env ((collectTextNodes (frameRenamedSel sel)).map ndata))
    { cache := (((collectTextNodes (frameRenamedSel sel)).map ndata).foldl (classifyStep env)
        { cache := [], styleRequests := [], renamedCount := 0, staged := [] }).cache
      styleRequests := (((collectTextNodes (frameRenamedSel sel)).map ndata).foldl (classifyStep env)
        { cache := [], styleRequests := [], renamedCount := 0, staged := [] }).styleRequests
      varRequests := [], mismatched := [] } hcok
  refine ⟨?_, ?_, ?_, ?_, ?_⟩ <;>
    simp [runAudit, h, h2', collectedOf, hst, hrc, hmm]

theorem runAudit_styleRequests_nodup (env : Resolvers) (sel : List Node) :
    (runAudit env sel).styleRequests.Nodup := by
  by_cases h : sel.length = 0
  · rw [runAudit_empty env sel h]; exact List.nodup_nil
  · by_cases h2 : (collectTextNodes (frameRenamedSel sel)).length = 0
    · rw [runAudit_noText env sel h (by simpa [collectedOf] using h2)]; exact List.nodup_nil
    · have hci := classifyFold_reqInv env ((collectTextNodes (frameRenamedSel sel)).map ndata)
        { cache := [], styleRequests := [], renamedCount := 0, staged := [] } reqInv_nil
      have hai := auditFold_reqInv env
        (((collectTextNodes (frameRenamedSel sel)).map ndata).foldl (classifyStep env)
          { cache := [], styleRequests := [], renamedCount := 0, staged := [] }).staged
        { cache := (((collectTextNodes (frameRenamedSel sel)).map ndata).foldl (classifyStep env)
            { cache := [], styleRequests := [], renamedCount := 0, staged := [] }).cache
          styleRequests := (((collectTextNodes (frameRenamedSel sel)).map ndata).foldl (classifyStep env)
            { cache := [], styleRequests := [], renamedCount := 0, staged := [] }).styleRequests
          varRequests := [], mismatched := [] } hci
      have : (runAudit env sel).styleRequests =
          ((((collectTextNodes (frameRenamedSel sel)).map ndata).foldl (classifyStep env)
            { cache := [], styleRequests := [], renamedCount := 0, staged := [] }).staged.foldl
              (auditStep env)
            { cache := (((collectTextNodes (frameRenamedSel sel)).map ndata).foldl (classifyStep env)
                { cache := [], styleRequests := [], renamedCount := 0, staged := [] }).cache
              styleRequests := (((collectTextNodes (frameRenamedSel sel)).map ndata).foldl
                (classifyStep env)
                { cache := [], styleRequests := [], renamedCount := 0, staged := [] }).styleRequests
              varRequests := [], mismatched := [] }).styleRequests := by
        simp [runAudit, h, h2]
      rw [this]
      exact hai.1

/-- Concrete resolver for the C1 witness: the variable resolver knows
nothing, while fill style "F" resolves to a permitted color name. -/
def c1Env : Resolvers :=
  { getStyle := fun id =>
      if id = "F" then some ⟨"PAINT", "colors/content/text/regular/body"⟩ else none
    getVariable := fun _ => none }

/-- Mapping used by the C1 witness (the "body" category entry). -/
def c1Map : CategoryMapping :=
  { newName := "body-text"
    color := ["colors/content/text/regular/body", "colors/content/text/inverse/body"] }

/-- Node used by the C1 witness: a bound fill variable that resolves to
absence plus a fill style that would resolve to a permitted name. -/
def c1Node : NodeData :=
  { id := 7, type := "TEXT", visible := true, name := "body-text"
    textStyleId := some "S", fillStyleId := some "F", boundFillVars := ["V"] }

/-- C1: a staged node with a first bound fill-variable reference whose
resolution yields absence is not ok, whatever its fill-style reference;
moreover, whenever a bound fill-variable reference exists the audit
outcome does not depend on the fill-style reference at all. -/
theorem c1_variable_absence_not_ok (env : Resolvers) (m : CategoryMapping) (d : NodeData)
    (v : String) (rest : List String)
    (hbv : d.boundFillVars = v :: rest)
    (habs : env.getVariable v = none) :
    checkColor env m d = false ∧
    ∀ fid : Option String, checkColor env m { d with fillStyleId := fid } = checkColor env m d := by
  constructor
  · simp [checkColor, hbv, habs]
  · intro fid
    simp [checkColor, hbv]

/-- Witness for C1: on the concrete node, the variable resolves to
absence, the unused fill style would resolve to a permitted name, and the
node is classified not ok. -/
theorem c1_witness :
    c1Node.boundFillVars = ["V"] ∧ c1Env.getVariable "V" = none ∧
    (c1Env.getStyle "F").map (fun fs => fs.name) = some "colors/content/text/regular/body" ∧
    "colors/content/text/regular/body" ∈ c1Map.color ∧
    checkColor c1Env c1Map c1Node = false :=
  ⟨rfl, rfl, rfl, by decide, (c1_variable_absence_not_ok c1Env c1Map c1Node "V" [] rfl rfl).1⟩

/-- C6: a staged node is ok exactly when its determined color identifier
is a member of its mapping's permitted colors or of the global state-color
exception set; in particular a node whose color identifier is
"colors/state/error" is ok regardless of its category mapping. -/
theorem c6_ok_iff_permitted_or_exception (env : Resolvers) (m : CategoryMapping) (d : NodeData) :
    checkColor env m d =
      (match determineColorId env d with
       | some c => decide (c ∈ m.color ∨ c ∈ stateColors)
       | none => false) ∧
    (determineColorId env d = some "colors/state/error" → checkColor env m d = true) := by
  have heq : checkColor env m d =
      (match determineColorId env d with
       | some c => decide (c ∈ m.color ∨ c ∈ stateColors)
       | none => false) := by
    cases hbv : d.boundFillVars with
    | cons v rest =>
      cases hv : env.getVariable v with
      | some vr => simp [checkColor, determineColorId, hbv, hv]
      | none => simp [checkColor, determineColorId, hbv, hv]
    | nil =>
      cases hf : truthy d.fillStyleId with
      | some fid =>
        cases hs : env.getStyle fid with
        | some fs => simp [checkColor, determineColorId, hbv, hf, hs]
        | none => simp [checkColor, determineColorId, hbv, hf, hs]
      | none => simp [checkColor, determineColorId, hbv, hf]
  refine ⟨heq, ?_⟩
  intro h
  rw [heq, h]
  simp [stateColors]

/-- Resolver for the C6 witness: the bound variable resolves to the
global exception color. -/
def c6Env : Resolvers :=
  { getStyle := fun _ => none
    getVariable := fun id => if id = "V" then some ⟨"colors/state/error"⟩ else none }

/-- Mapping for the C6 witness whose permitted colors do not contain the
exception color. -/
def c6Map : CategoryMapping :=
  { newName := "heading-text"
    color := ["colors/content/text/regular/heading", "colors/content/text/inverse/heading"] }

/-- Node for the C6 witness. -/
def c6Node : NodeData :=
  { id := 8, type := "TEXT", visible := true, name := "heading-text"
    textStyleId := some "S", fillStyleId := none, boundFillVars := ["V"] }

/-- Witness for C6: a node whose identifier resolves to
"colors/state/error" is ok although that color is not in its mapping. -/
theorem c6_witness :
    (checkColor c6Env c6Map c6Node =
      (match determineColorId c6Env c6Node with
       | some c => decide (c ∈ c6Map.color ∨ c ∈ stateColors)
       | none => false) ∧
     (determineColorId c6Env c6Node = some "colors/state/error" →
       checkColor c6Env c6Map c6Node = true)) ∧
    determineColorId c6Env c6Node = some "colors/state/error" ∧
    "colors/state/error" ∉ c6Map.color :=
  ⟨c6_ok_iff_permitted_or_exception c6Env c6Map c6Node, rfl, by decide⟩

/-- Processing a sequence of optional ids through the style cache, as the
classification loop does: falsy entries are discarded, each truthy id is
looked up once through `cachedLookup`. -/
def preloadStyles (env : Resolvers) (ids : List (Option String)) : Cache × List String :=
  ids.foldl (fun st idOpt =>
    match truthy idOpt with
    | some id =>
      let r := cachedLookup env st.1 st.2 id
      (r.2.1, r.2.2)
    | none => st) ([], [])

/-- C2 (amended): the style resolver is deduplicated — no style id is
requested twice in a run, and the cache preload of
[id1, id1, id2, null, id1] issues exactly 2 style requests — but the
variable resolver is requested once per staged node, not once per
distinct identifier. -/
theorem c2_style_dedup_only (env : Resolvers) (sel : List Node) :
    (runAudit env sel).styleRequests.Nodup ∧
    ∀ id1 id2 : String, id1 ≠ "" → id2 ≠ "" → id1 ≠ id2 →
      (preloadStyles env [some id1, some id1, some id2, none, some id1]).2.length = 2 := by
  refine ⟨runAudit_styleRequests_nodup env sel, ?_⟩
  intro id1 id2 h1 h2 hne
  have ht1 : truthy (some id1) = some id1 := by simp [truthy, h1]
  have ht2 : truthy (some id2) = some id2 := by simp [truthy, h2]
  have htn : truthy (none : Option String) = none := rfl
  have hl0 : List.lookup id1 ([] : Cache) = none := rfl
  have hl11 : List.lookup id1 [(id1, env.getStyle id1)] = some (env.getStyle id1) :=
    lookup_cons_self id1 (env.getStyle id1) []
  have hl21 : List.lookup id2 [(id1, env.getStyle id1)] = none := by
    rw [lookup_cons_other (Ne.symm hne)]; rfl
  have hl12 : List.lookup id1 [(id2, env.getStyle id2), (id1, env.getStyle id1)] =
      some (env.getStyle id1) := by
    rw [lookup_cons_other hne]; exact hl11
  simp only [preloadStyles, List.foldl_cons, List.foldl_nil, ht1, ht2, htn,
    cachedLookup, hl0, hl11, hl21, hl12]
  rfl

/-- Resolver for the C2 counterexample. -/
def c2Env : Resolvers :=
  { getStyle := fun id => if id = "S" then some ⟨"TEXT", "body/regular"⟩ else none
    getVariable := fun id =>
      if id = "V" then some ⟨"colors/content/text/regular/body"⟩ else none }

/-- Selection for the C2 counterexample: two text nodes bound to the same
fill variable id "V". -/
def c2Sel : List Node :=
  [.mk { id := 20, type := "FRAME", visible := true, name := "item"
         textStyleId := none, fillStyleId := none, boundFillVars := [] }
     [.mk { id := 21, type := "TEXT", visible := true, name := "body-text"
            textStyleId := some "S", fillStyleId := none, boundFillVars := ["V"] } [],
      .mk { id := 22, type := "TEXT", visible := true, name := "body-text"
            textStyleId := some "S", fillStyleId := none, boundFillVars := ["V"] } []]]

/-- Counterexample to C2 as stated: the run on `c2Sel` issues two variable
resolution requests for the single distinct identifier "V". -/
theorem c2_counterexample :
    (runAudit c2Env c2Sel).varRequests = ["V", "V"] ∧
    ¬ (runAudit c2Env c2Sel).varRequests.Nodup := by
  constructor
  · rfl
  · intro h
    rw [show (runAudit c2Env c2Sel).varRequests = ["V", "V"] from rfl] at h
    simp at h

/-- Witness for the amended C2 on concrete inputs. -/
theorem c2_witness :
    (runAudit c2Env c2Sel).styleRequests.Nodup ∧
    (preloadStyles c2Env [some "a", some "a", some "b", none, some "a"]).2.length = 2 :=
  ⟨(c2_style_dedup_only c2Env c2Sel).1,
   (c2_style_dedup_only c2Env c2Sel).2 "a" "b" (by decide) (by decide) (by decide)⟩

theorem stagedPure_ids_sublist (env : Resolvers) (ds : List NodeData) :
    ((stagedPure env ds).map (fun s => s.node.id)).Sublist (ds.map (fun d => d.id)) := by
  induction ds with
  | nil => simp [stagedPure]
  | cons d rest ih =>
    simp only [stagedPure, List.filterMap_cons, List.map_cons]
    cases classifyData env d with
    | none => exact ih.cons _
    | some m => simpa using ih.cons₂ d.id

/-- C3 (amended): each staged pair comes from one occurrence in the
collected text-node list, so whenever the collected list holds no node
twice, no node is staged twice; a node collected from two overlapping
selection roots, however, is staged once per occurrence. -/
theorem c3_staged_once_if_collected_once (env : Resolvers) (sel : List Node)
    (h : ((collectedOf sel).map (fun n => (ndata n).id)).Nodup) :
    ((runAudit env sel).staged.map (fun s => s.node.id)).Nodup := by
  by_cases h0 : sel.length = 0
  · rw [runAudit_empty env sel h0]; exact List.nodup_nil
  · by_cases h2 : (collectedOf sel).length = 0
    · rw [runAudit_noText env sel h0 h2]; exact List.nodup_nil
    · obtain ⟨_, _, _, hst, _⟩ := runAudit_main env sel h0 h2
      rw [hst]
      refine List.Nodup.sublist ?_ h
      have := stagedPure_ids_sublist env ((collectedOf sel).map ndata)
      simpa [List.map_map, Function.comp] using this

/-- Resolver for C3: style "S" is a mapped text style. -/
def c3Env : Resolvers :=
  { getStyle := fun id => if id = "S" then some ⟨"TEXT", "body/regular"⟩ else none
    getVariable := fun _ => none }

/-- A text node for C3. -/
def c3Text : Node :=
  .mk { id := 31, type := "TEXT", visible := true, name := "body-text"
        textStyleId := some "S", fillStyleId := none, boundFillVars := [] } []

/-- A frame containing `c3Text`. -/
def c3Frame : Node :=
  .mk { id := 30, type := "FRAME", visible := true, name := "item"
        textStyleId := none, fillStyleId := none, boundFillVars := [] } [c3Text]

/-- Counterexample to C3 as stated: selecting both the container and the
text node inside it stages the node twice. -/
theorem c3_counterexample :
    (runAudit c3Env [c3Frame, c3Text]).staged.map (fun s => s.node.id) = [31, 31] ∧
    ¬ ((runAudit c3Env [c3Frame, c3Text]).staged.map (fun s => s.node.id)).Nodup := by
  constructor
  · rfl
  · intro h
    rw [show (runAudit c3Env [c3Frame, c3Text]).staged.map (fun s => s.node.id) = [31, 31]
      from rfl] at h
    simp at h

/-- Witness for the amended C3: with the single container root the
collected list is duplicate-free and so is the staged list. -/
theorem c3_witness :
    ((collectedOf [c3Frame]).map (fun n => (ndata n).id)).Nodup ∧
    ((runAudit c3Env [c3Frame]).staged.map (fun s => s.node.id)).Nodup :=
  ⟨by decide, c3_staged_once_if_collected_once c3Env [c3Frame] (by decide)⟩

mutual
/-- Induction principle for the nested `Node` type. -/
theorem nodeInduction (P : Node → Prop) (Q : List Node → Prop)
    (h1 : ∀ d cs, Q cs → P (.mk d cs)) (h2 : Q [])
    (h3 : ∀ c cs, P c → Q cs → Q (c :: cs)) : ∀ t, P t
  | .mk d cs => h1 d cs (nodeListInduction P Q h1 h2 h3 cs)

/-- Companion induction principle for lists of nodes. -/
theorem nodeListInduction (P : Node → Prop) (Q : List Node → Prop)
    (h1 : ∀ d cs, Q cs → P (.mk d cs)) (h2 : Q [])
    (h3 : ∀ c cs, P c → Q cs → Q (c :: cs)) : ∀ l, Q l
  | [] => h2
  | c :: cs => h3 c cs (nodeInduction P Q h1 h2 h3 c) (nodeListInduction P Q h1 h2 h3 cs)
end

/-- A chain from a root down to a descendant along which every node
(both ends included) is visible. -/
inductive VisPath : Node → Node → Prop
  | refl (d : NodeData) (cs : List Node) : d.visible = true → VisPath (.mk d cs) (.mk d cs)
  | step (d : NodeData) (cs : List Node) (c n : Node) :
      d.visible = true → c ∈ cs → VisPath c n → VisPath (.mk d cs) n

theorem visPath_visible {p n : Node} (h : VisPath p n) : (ndata n).visible = true := by
  induction h with
  | refl d cs hv => simpa [ndata] using hv
  | step d cs c n hv hc hp ih => exact ih

theorem findAllTextNodes_visPath :
    ∀ t, ∀ n ∈ findAllTextNodes t, VisPath t n ∧ (ndata n).type = "TEXT" := by
  refine nodeInduction _
    (fun cs => ∀ n ∈ findAllTextNodesList cs,
      ∃ c ∈ cs, VisPath c n ∧ (ndata n).type = "TEXT") ?_ ?_ ?_
  · intro d cs hq n hn
    cases hv : d.visible with
    | false => simp [findAllTextNodes, hv] at hn
    | true =>
      by_cases ht : d.type = "TEXT"
      · have : n = Node.mk d cs := by simpa [findAllTextNodes, hv, ht] using hn
        subst this
        exact ⟨VisPath.refl d cs hv, ht⟩
      · have hn' : n ∈ findAllTextNodesList cs := by
          simpa [findAllTextNodes, hv, ht] using hn
        obtain ⟨c, hc, hp, htxt⟩ := hq n hn'
        exact ⟨VisPath.step d cs c n hv hc hp, htxt⟩
  · intro n hn; simp [findAllTextNodesList] at hn
  · intro c cs hp hq n hn
    rw [findAllTextNodesList] at hn
    rcases List.mem_append.mp hn with h1 | h1
    · obtain ⟨hp1, ht1⟩ := hp n h1
      exact ⟨c, List.mem_cons_self c cs, hp1, ht1⟩
    · obtain ⟨c', hc', hp', ht'⟩ := hq n h1
      exact ⟨c', List.mem_cons_of_mem _ hc', hp', ht'⟩

/-- C4 (amended): every node collected from a container selection root is
reached along an all-visible chain (so it and all its ancestors within
that root are visible), and hidden subtrees contribute nothing; a
selection root that is itself text-bearing, however, is included directly
with no visibility restriction. -/
theorem c4_collector_visibility (sel : List Node) :
    (∀ n ∈ collectTextNodes sel,
      (∃ root ∈ sel, isContainerType (ndata root).type = true ∧ VisPath root n ∧
        (ndata n).visible = true) ∨
      (n ∈ sel ∧ (ndata n).type = "TEXT")) ∧
    (∀ t : Node, (ndata t).visible = false → findAllTextNodes t = []) := by
  constructor
  · induction sel with
    | nil => intro n hn; simp [collectTextNodes] at hn
    | cons root rest ih =>
      intro n hn
      rw [collectTextNodes] at hn
      rcases List.mem_append.mp hn with h1 | h1
      · by_cases hc : isContainerType (ndata root).type = true
        · rw [if_pos hc] at h1
          obtain ⟨hp, _⟩ := findAllTextNodes_visPath root n h1
          exact Or.inl ⟨root, List.mem_cons_self root rest, hc, hp, visPath_visible hp⟩
        · rw [if_neg hc] at h1
          by_cases ht : (ndata root).type = "TEXT"
          · rw [if_pos ht] at h1
            have : n = root := by simpa using h1
            subst this
            exact Or.inr ⟨List.mem_cons_self n rest, ht⟩
          · rw [if_neg ht] at h1
            simp at h1
      · rcases ih n h1 with ⟨root', hr, hc, hp, hv⟩ | ⟨hr, ht⟩
        · exact Or.inl ⟨root', List.mem_cons_of_mem _ hr, hc, hp, hv⟩
        · exact Or.inr ⟨List.mem_cons_of_mem _ hr, ht⟩
  · intro t hv
    cases t with
    | mk d cs =>
      have : d.visible = false := hv
      simp [findAllTextNodes, this]

/-- A hidden directly-selected text node for the C4 counterexample. -/
def c4Hidden : Node :=
  .mk { id := 41, type := "TEXT", visible := false, name := "x"
        textStyleId := none, fillStyleId := none, boundFillVars := [] } []

/-- Counterexample to C4 as stated: a hidden text-bearing selection root
is collected, so the collector's output is not restricted to visible
nodes. -/
theorem c4_counterexample :
    collectTextNodes [c4Hidden] = [c4Hidden] ∧ (ndata c4Hidden).visible = false :=
  ⟨rfl, rfl⟩

/-- Witness for the amended C4 on a concrete container selection. -/
theorem c4_witness :
    (∃ root ∈ [c3Frame], isContainerType (ndata root).type = true ∧ VisPath root c3Text ∧
      (ndata c3Text).visible = true) ∨
    (c3Text ∈ [c3Frame] ∧ (ndata c3Text).type = "TEXT") :=
  (c4_collector_visibility [c3Frame]).1 c3Text
    (by rw [show collectTextNodes [c3Frame] = [c3Text] from rfl]
        exact List.mem_singleton.mpr rfl)

mutual
/-- Preorder flattening of a tree: each node's data tagged with whether
the whole chain from the root down to it (ends included) is visible. -/
def vpPairs (b : Bool) : Node → List (Bool × NodeData)
  | .mk d cs => (b && d.visible, d) :: vpPairsList (b && d.visible) cs

/-- `vpPairs` over a child list. -/
def vpPairsList (b : Bool) : List Node → List (Bool × NodeData)
  | [] => []
  | c :: cs => vpPairs b c ++ vpPairsList b cs
end

/-- The rename the Frame Normalizer applies to one node's data. -/
def frameRenameData (d : NodeData) : NodeData :=
  if d.type = "FRAME" ∧ matchesDefaultFrameName d.name = true then { d with name := "item" }
  else d

/-- A flagged node the Frame Normalizer renames and counts: on an
all-visible chain, frame-kind, default-pattern name. -/
def frameHit (p : Bool × NodeData) : Bool :=
  p.1 && (decide (p.2.type = "FRAME") && matchesDefaultFrameName p.2.name)

/-- Renaming step on a flagged pair: nodes on an all-visible chain get
the frame rename, all others are untouched. -/
def vpStep (p : Bool × NodeData) : Bool × NodeData :=
  (p.1, if p.1 = true then frameRenameData p.2 else p.2)

theorem vpPairs_false_flag :
    ∀ t, ∀ p ∈ vpPairs false t, p.1 = false := by
  refine nodeInduction _ (fun l => ∀ p ∈ vpPairsList false l, p.1 = false) ?_ ?_ ?_
  · intro d cs hq p hp
    rw [vpPairs, Bool.false_and] at hp
    rcases List.mem_cons.mp hp with h1 | h1
    · rw [h1]
    · exact hq p h1
  · intro p hp; simp [vpPairsList] at hp
  · intro c cs hp hq p hm
    rw [vpPairsList] at hm
    rcases List.mem_append.mp hm with h1 | h1
    · exact hp p h1
    · exact hq p h1

theorem vpPairsList_false_flag (l : List Node) : ∀ p ∈ vpPairsList false l, p.1 = false := by
  intro p hp
  refine vpPairs_false_flag (Node.mk ⟨0, "", false, "", none, none, []⟩ l) p ?_
  rw [vpPairs, Bool.false_and]
  exact List.mem_cons_of_mem _ hp

theorem map_vpStep_id {l : List (Bool × NodeData)} (h : ∀ p ∈ l, p.1 = false) :
    l.map vpStep = l := by
  induction l with
  | nil => rfl
  | cons p rest ih =>
    have h1 : p.1 = false := h p (List.mem_cons_self p rest)
    have h2 : rest.map vpStep = rest := ih (fun q hq => h q (List.mem_cons_of_mem _ hq))
    obtain ⟨b, d⟩ := p
    have hb : b = false := h1
    subst hb
    simp [vpStep, h2]

theorem renameFrames_count :
    ∀ t, (renameFrames t).2 = (vpPairs true t).countP frameHit := by
  refine nodeInduction _
    (fun l => (renameFramesList l).2 = (vpPairsList true l).countP frameHit) ?_ ?_ ?_
  · intro d cs hq
    cases hv : d.visible with
    | false =>
      have hz : (vpPairsList false cs).countP frameHit = 0 := by
        refine List.countP_eq_zero.mpr ?_
        intro p hp
        have hflag : p.1 = false := vpPairsList_false_flag cs p hp
        simp [frameHit, hflag]
      simp [renameFrames, vpPairs, hv, hz, frameHit]
    | true =>
      by_cases hit : d.type = "FRAME" ∧ matchesDefaultFrameName d.name = true
      · simp [renameFrames, vpPairs, hv, hit, List.countP_cons, frameHit, hq]
        omega
      · simp [renameFrames, vpPairs, hv, hit, List.countP_cons, frameHit, hq]
  · rfl
  · intro c cs hp hq
    rw [renameFramesList, vpPairsList]
    simp only [List.countP_append]
    omega

theorem renameFrames_pairs :
    ∀ t, vpPairs true (renameFrames t).1 = (vpPairs true t).map vpStep := by
  refine nodeInduction _
    (fun l => vpPairsList true (renameFramesList l).1 = (vpPairsList true l).map vpStep) ?_ ?_ ?_
  · intro d cs hq
    cases hv : d.visible with
    | false =>
      have hid : renameFrames (Node.mk d cs) = (Node.mk d cs, 0) := by
        simp [renameFrames, hv]
      rw [hid, vpPairs, hv, Bool.and_false, List.map_cons,
        map_vpStep_id (vpPairsList_false_flag cs)]
      simp [vpStep]
    | true =>
      by_cases hit : d.type = "FRAME" ∧ matchesDefaultFrameName d.name = true <;>
        simp [renameFrames, vpPairs, vpStep, frameRenameData, hv, hit, hq]
  · rfl
  · intro c cs hp hq
    rw [renameFramesList, vpPairsList]
    simp only [vpPairsList, List.map_append]
    rw [← hp, ← hq]

/-- C5: the Frame Normalizer renames to "item" and counts exactly the
nodes on an all-visible chain from the root whose kind is frame and whose
name matches the default pattern, and it never enters a hidden subtree. -/
theorem c5_frame_normalizer (t : Node) :
    (renameFrames t).2 = (vpPairs true t).countP frameHit ∧
    vpPairs true (renameFrames t).1 = (vpPairs true t).map vpStep ∧
    ∀ (d : NodeData) (cs : List Node), d.visible = false →
      renameFrames (Node.mk d cs) = (Node.mk d cs, 0) := by
  refine ⟨renameFrames_count t, renameFrames_pairs t, ?_⟩
  intro d cs hv
  simp [renameFrames, hv]

/-- A hidden frame with a default name, for the C5 witness. -/
def c5HiddenData : NodeData :=
  { id := 51, type := "FRAME", visible := false, name := "Frame 3"
    textStyleId := none, fillStyleId := none, boundFillVars := [] }

/-- Concrete tree for the C5 witness: a matching visible frame root, a
hidden matching frame child (skipped), and a visible group whose name
matches the pattern (not renamed, wrong kind). -/
def c5Tree : Node :=
  .mk { id := 50, type := "FRAME", visible := true, name := "Frame 2"
        textStyleId := none, fillStyleId := none, boundFillVars := [] }
    [.mk c5HiddenData
       [.mk { id := 53, type := "FRAME", visible := true, name := "Frame 4"
              textStyleId := none, fillStyleId := none, boundFillVars := [] } []],
     .mk { id := 52, type := "GROUP", visible := true, name := "Frame 9"
           textStyleId := none, fillStyleId := none, boundFillVars := [] } []]

/-- A visible group whose name matches the default pattern: container
kind per the collection loop, yet not of the frame kind the normalizer
renames. -/
def c5Group : Node :=
  .mk { id := 54, type := "GROUP", visible := true, name := "Frame 9"
        textStyleId := none, fillStyleId := none, boundFillVars := [] } []

/-- Counterexample to C5 as stated: a visible container-kind node with a
default-pattern name is neither renamed nor counted, because the
normalizer tests only the FRAME type. -/
theorem c5_counterexample :
    isContainerType (ndata c5Group).type = true ∧
    (ndata c5Group).visible = true ∧
    matchesDefaultFrameName (ndata c5Group).name = true ∧
    renameFrames c5Group = (c5Group, 0) ∧
    (ndata (renameFrames c5Group).1).name = "Frame 9" :=
  ⟨rfl, rfl, by decide, rfl, rfl⟩

/-- Witness for C5: on `c5Tree` exactly one node (the root) is renamed
and counted, and a hidden frame is left alone with count zero. -/
theorem c5_witness :
    (renameFrames c5Tree).2 = (vpPairs true c5Tree).countP frameHit ∧
    (renameFrames c5Tree).2 = 1 ∧
    (ndata (renameFrames c5Tree).1).name = "item" ∧
    renameFrames (Node.mk c5HiddenData []) = (Node.mk c5HiddenData [], 0) :=
  ⟨(c5_frame_normalizer c5Tree).1, rfl, rfl,
   (c5_frame_normalizer c5Tree).2.2 c5HiddenData [] rfl⟩

/-- Recognizer for notification effects. -/
def isNotify : Effect → Bool
  | .notify _ => true
  | _ => false

/-- Recognizer for selection-assignment effects. -/
def isSetSelection : Effect → Bool
  | .setSelection _ => true
  | _ => false

/-- C9: every run emits exactly one notification and its very last host
call is the unconditional plugin close. -/
theorem c9_one_notification_then_close (env : Resolvers) (sel : List Node) :
    (runAudit env sel).effects.countP isNotify = 1 ∧
    (runAudit env sel).effects.getLast? = some Effect.closePlugin := by
  by_cases h0 : sel.length = 0
  · rw [runAudit_empty env sel h0]
    exact ⟨rfl, rfl⟩
  · by_cases h2 : (collectedOf sel).length = 0
    · rw [runAudit_noText env sel h0 h2]
      exact ⟨rfl, rfl⟩
    · have h2' : ¬ (collectTextNodes (frameRenamedSel sel)).length = 0 := by
        simpa [collectedOf] using h2
      constructor
      · simp only [runAudit, h0, h2', if_neg, if_false]
        split <;> simp [isNotify, List.countP_cons, List.countP_append]
      · simp only [runAudit, h0, h2', if_neg, if_false]
        split <;> rfl

/-- C10: the selection is reassigned exactly when at least one mismatch
exists, and then it is set to the mismatched nodes; on every run with an
empty mismatch list (empty selection, no text found, or a clean audit) no
selection assignment is emitted. -/
theorem c10_selection_set_iff_mismatch (env : Resolvers) (sel : List Node) :
    (runAudit env sel).effects.filter isSetSelection =
      (if 0 < (runAudit env sel).mismatched.length then
        [Effect.setSelection ((runAudit env sel).mismatched.map (fun d => d.id))]
       else []) := by
  by_cases h0 : sel.length = 0
  · rw [runAudit_empty env sel h0]; rfl
  · by_cases h2 : (collectedOf sel).length = 0
    · rw [runAudit_noText env sel h0 h2]; rfl
    · have h2' : ¬ (collectTextNodes (frameRenamedSel sel)).length = 0 := by
        simpa [collectedOf] using h2
      simp only [runAudit, h0, h2', if_neg, if_false]
      split <;> simp [isSetSelection]

/-- The audit outcome of one staged node, as returned by its callback:
the node itself when not ok, nothing when ok. -/
def auditResultPure (env : Resolvers) (s : Staged) : Option NodeData :=
  if checkColor env s.mapping s.node then none else some s.node

/-- Writing a settled value into the result store at one slot. -/
def storeWrite (store : Nat → Option (Option NodeData)) (i : Nat) (v : Option NodeData) :
    Nat → Option (Option NodeData) :=
  fun j => if j = i then some v else store j

/-- One settle event: callback `i` computes its own node's result and
stores it at slot `i`. -/
def scheduleStep (env : Resolvers) (staged : List Staged)
    (store : Nat → Option (Option NodeData)) (i : Nat) : Nat → Option (Option NodeData) :=
  match staged.get? i with
  | some s => storeWrite store i (auditResultPure env s)
  | none => store

/-- The result store after the batch settles in the order `sched`. -/
def runSchedule (env : Resolvers) (staged : List Staged) (sched : List Nat) :
    Nat → Option (Option NodeData) :=
  sched.foldl (scheduleStep env staged) (fun _ => none)

/-- Results assembled back in index order after the whole batch settled,
filtered to the not-ok nodes, as `Promise.all` + `filter` do. -/
def scheduledMismatches (env : Resolvers) (staged : List Staged) (sched : List Nat) :
    List NodeData :=
  ((List.range staged.length).map (fun i => runSchedule env staged sched i)).filterMap
    (fun r => r.getD none)

theorem runSchedule_filled (env : Resolvers) (staged : List Staged) :
    ∀ (sched : List Nat) (store : Nat → Option (Option NodeData)) (i : Nat) (s : Staged),
      staged.get? i = some s →
      (i ∈ sched ∨ store i = some (auditResultPure env s)) →
      sched.foldl (scheduleStep env staged) store i = some (auditResultPure env s) := by
  intro sched
  induction sched with
  | nil =>
    intro store i s hg hmem
    rcases hmem with h | h
    · simp at h
    · simpa using h
  | cons j rest ih =>
    intro store i s hg hmem
    rw [List.foldl_cons]
    refine ih (scheduleStep env staged store j) i s hg ?_
    rcases hmem with h | h
    · rcases List.mem_cons.mp h with he | hrest
      · subst he
        right
        rw [scheduleStep, hg]
        simp [storeWrite]
      · exact Or.inl hrest
    · right
      rw [scheduleStep]
      cases hgj : staged.get? j with
      | none => exact h
      | some t =>
        by_cases hij : i = j
        · subst hij
          rw [hg] at hgj
          cases hgj
          simp [storeWrite]
        · simpa [storeWrite, hij] using h

theorem range_map_eq {α β : Type} (l : List α) (g : Nat → β) (f : α → β)
    (h : ∀ (i : Nat) (a : α), l.get? i = some a → g i = f a) :
    (List.range l.length).map g = l.map f := by
  induction l generalizing g with
  | nil => rfl
  | cons a tl ih =>
    rw [List.length_cons, List.range_succ_eq_map, List.map_cons, List.map_map]
    rw [h 0 a rfl]
    congr 1
    refine ih (g ∘ Nat.succ) ?_
    intro i b hb
    exact h (i + 1) b (by simpa using hb)

theorem mismatchedPure_eq_filterMap (env : Resolvers) (staged : List Staged) :
    mismatchedPure env staged = staged.filterMap (auditResultPure env) := by
  induction staged with
  | nil => rfl
  | cons s rest ih =>
    simp only [mismatchedPure, List.filter_cons, auditResultPure, List.filterMap_cons] at *
    cases hc : checkColor env s.mapping s.node <;> simp [hc, ih]

theorem scheduledMismatches_eq (env : Resolvers) (staged : List Staged) (sched : List Nat)
    (hperm : sched.Perm (List.range staged.length)) :
    scheduledMismatches env staged sched = staged.filterMap (auditResultPure env) := by
  have hpoint : ∀ (i : Nat) (s : Staged), staged.get? i = some s →
      runSchedule env staged sched i = some (auditResultPure env s) := by
    intro i s hg
    refine runSchedule_filled env staged sched _ i s hg (Or.inl ?_)
    rw [hperm.mem_iff, List.mem_range]
    exact (List.get?_eq_some.mp hg).choose
  have hmap : (List.range staged.length).map (fun i => runSchedule env staged sched i) =
      staged.map (fun s => some (auditResultPure env s)) :=
    range_map_eq staged _ _ hpoint
  rw [scheduledMismatches, hmap, List.filterMap_map]
  rfl

/-- C8: the mismatch list is exactly the not-ok staged nodes in staged
order, and assembling the batch results in any settle order whatsoever
yields that same list. -/
theorem c8_mismatch_order_schedule_independent (env : Resolvers) (sel : List Node)
    (sched : List Nat)
    (hperm : sched.Perm (List.range (runAudit env sel).staged.length)) :
    (runAudit env sel).mismatched =
      ((runAudit env sel).staged.filter
        (fun s => !checkColor env s.mapping s.node)).map (fun s => s.node) ∧
    scheduledMismatches env (runAudit env sel).staged sched = (runAudit env sel).mismatched := by
  have h1 : (runAudit env sel).mismatched = mismatchedPure env (runAudit env sel).staged := by
    by_cases h0 : sel.length = 0
    · rw [runAudit_empty env sel h0]; rfl
    · by_cases h2 : (collectedOf sel).length = 0
      · rw [runAudit_noText env sel h0 h2]; rfl
      · obtain ⟨_, _, _, hst, hmm⟩ := runAudit_main env sel h0 h2
        rw [hmm, hst]
  constructor
  · rw [h1]; rfl
  · rw [h1, mismatchedPure_eq_filterMap]
    exact scheduledMismatches_eq env _ sched hperm

/-- Resolver for the C8 witness: one staged node resolves to a permitted
color, the other to a brand color outside its mapping. -/
def c8Env : Resolvers :=
  { getStyle := fun id => if id = "S" then some ⟨"TEXT", "body/regular"⟩ else none
    getVariable := fun id =>
      if id = "V1" then some ⟨"colors/content/text/regular/body"⟩
      else if id = "V2" then some ⟨"colors/content/text/brand/body"⟩
      else none }

/-- Selection for the C8 witness: an ok node followed by a mismatched
node. -/
def c8Sel : List Node :=
  [.mk { id := 80, type := "FRAME", visible := true, name := "item"
         textStyleId := none, fillStyleId := none, boundFillVars := [] }
     [.mk { id := 81, type := "TEXT", visible := true, name := "body-text"
            textStyleId := some "S", fillStyleId := none, boundFillVars := ["V1"] } [],
      .mk { id := 82, type := "TEXT", visible := true, name := "body-text"
            textStyleId := some "S", fillStyleId := none, boundFillVars := ["V2"] } []]]

/-- Witness for C8: with two staged nodes and the reversed settle order,
the mismatch list is the ordered not-ok filter and is unchanged. -/
theorem c8_witness :
    (runAudit c8Env c8Sel).mismatched =
      ((runAudit c8Env c8Sel).staged.filter
        (fun s => !checkColor c8Env s.mapping s.node)).map (fun s => s.node) ∧
    scheduledMismatches c8Env (runAudit c8Env c8Sel).staged [1, 0] =
      (runAudit c8Env c8Sel).mismatched :=
  c8_mismatch_order_schedule_independent c8Env c8Sel [1, 0] (by decide)

mutual
/-- No node on an all-visible chain from the root is a frame with a
default-pattern name (so the Frame Normalizer has nothing to do). -/
def noMatchVis : Node → Bool
  | .mk d cs =>
    !d.visible ||
      (!(decide (d.type = "FRAME") && matchesDefaultFrameName d.name) && noMatchVisList cs)

/-- `noMatchVis` over a child list. -/
def noMatchVisList : List Node → Bool
  | [] => true
  | c :: cs => noMatchVis c && noMatchVisList cs
end

theorem matches_item_false : matchesDefaultFrameName "item" = false := by decide

theorem noMatchVis_rf_id :
    ∀ t, noMatchVis t = true → renameFrames t = (t, 0) := by
  refine nodeInduction _
    (fun l => noMatchVisList l = true → renameFramesList l = (l, 0)) ?_ ?_ ?_
  · intro d cs hq hnmv
    cases hv : d.visible with
    | false => simp [renameFrames, hv]
    | true =>
      rw [noMatchVis, hv] at hnmv
      simp only [Bool.not_true, Bool.false_or, Bool.and_eq_true, Bool.not_eq_true'] at hnmv
      obtain ⟨hhit, hrest⟩ := hnmv
      have hq' := hq hrest
      have hnot : ¬ (d.type = "FRAME" ∧ matchesDefaultFrameName d.name = true) := by
        rintro ⟨h1, h2⟩
        rw [h2] at hhit
        simp [h1] at hhit
      simp [renameFrames, hv, hnot, hq']
  · intro _; rfl
  · intro c cs hp hq hpq
    rw [noMatchVisList, Bool.and_eq_true] at hpq
    obtain ⟨h1, h2⟩ := hpq
    rw [renameFramesList, hp h1, hq h2]
    rfl

theorem noMatchVis_after_rf :
    ∀ t, noMatchVis (renameFrames t).1 = true := by
  refine nodeInduction _
    (fun l => noMatchVisList (renameFramesList l).1 = true) ?_ ?_ ?_
  · intro d cs hq
    cases hv : d.visible with
    | false => simp [renameFrames, noMatchVis, hv]
    | true =>
      by_cases hit : d.type = "FRAME" ∧ matchesDefaultFrameName d.name = true
      · simp [renameFrames, noMatchVis, hv, hit, matches_item_false, hq]
      · have hb : (decide (d.type = "FRAME") && matchesDefaultFrameName d.name) = false := by
          rcases Decidable.not_and_iff_or_not.mp hit with h1 | h1
          · simp [h1]
          · simp [Bool.not_eq_true] at h1
            simp [h1]
        simp [renameFrames, noMatchVis, hv, hit, hb, hq]
  · rfl
  · intro c cs hp hq
    rw [renameFramesList, noMatchVisList]
    simp [hp, hq]

theorem renameData_type (env : Resolvers) (d : NodeData) :
    (renameData env d).type = d.type := by
  unfold renameData
  cases classifyData env d <;> rfl

theorem renameData_visible (env : Resolvers) (d : NodeData) :
    (renameData env d).visible = d.visible := by
  unfold renameData
  cases classifyData env d <;> rfl

theorem noMatchVis_rtt (env : Resolvers) :
    ∀ t, noMatchVis t = true → noMatchVis (renameTextTree env t) = true := by
  refine nodeInduction _
    (fun l => noMatchVisList l = true →
      noMatchVisList (renameTextTreeList env l) = true) ?_ ?_ ?_
  · intro d cs hq hnmv
    cases hv : d.visible with
    | false => simpa [renameTextTree, hv] using hnmv
    | true =>
      rw [noMatchVis, hv] at hnmv
      simp only [Bool.not_true, Bool.false_or, Bool.and_eq_true, Bool.not_eq_true'] at hnmv
      obtain ⟨hhit, hrest⟩ := hnmv
      by_cases ht : d.type = "TEXT"
      · have hty : (renameData env d).type = "TEXT" := by rw [renameData_type]; exact ht
        simp [renameTextTree, hv, ht, noMatchVis, renameData_visible, hty, hrest]
      · simp [renameTextTree, hv, ht, noMatchVis, hhit, hq hrest]
  · intro _; rfl
  · intro c cs hp hq hpq
    rw [noMatchVisList, Bool.and_eq_true] at hpq
    obtain ⟨h1, h2⟩ := hpq
    rw [renameTextTreeList, noMatchVisList]
    simp [hp h1, hq h2]

theorem noMatchVis_rtr (env : Resolvers) (t : Node) (h : noMatchVis t = true) :
    noMatchVis (renameTextRoot env t) = true := by
  unfold renameTextRoot
  by_cases hc : isContainerType (ndata t).type = true
  · rw [if_pos hc]
    exact noMatchVis_rtt env t h
  · rw [if_neg hc]
    by_cases ht : (ndata t).type = "TEXT"
    · rw [if_pos ht]
      cases t with
      | mk d cs =>
        have hd : d.type = "TEXT" := ht
        cases hv : d.visible with
        | false =>
          simp [noMatchVis, renameData_visible, ndata, nchildren, hv]
        | true =>
          rw [noMatchVis, hv] at h
          simp only [Bool.not_true, Bool.false_or, Bool.and_eq_true, Bool.not_eq_true'] at h
          have hty : (renameData env d).type = "TEXT" := by rw [renameData_type]; exact hd
          simp [noMatchVis, renameData_visible, ndata, nchildren, hv, hty, h.2]
    · rw [if_neg ht]
      exact h

theorem classifyData_name_update (env : Resolvers) (d : NodeData) (x : String) :
    classifyData env { d with name := x } = classifyData env d := rfl

theorem renameData_none {env : Resolvers} {d : NodeData}
    (h : classifyData env d = none) : renameData env d = d := by
  unfold renameData; rw [h]

theorem renameData_some {env : Resolvers} {d : NodeData} {m : CategoryMapping}
    (h : classifyData env d = some m) : renameData env d = { d with name := m.newName } := by
  unfold renameData; rw [h]

theorem classifyData_renameData (env : Resolvers) (d : NodeData) :
    classifyData env (renameData env d) = classifyData env d := by
  cases hc : classifyData env d with
  | none => rw [renameData_none hc]; exact hc
  | some m => rw [renameData_some hc, classifyData_name_update]; exact hc

theorem renameData_idem (env : Resolvers) (d : NodeData) :
    renameData env (renameData env d) = renameData env d := by
  cases hc : classifyData env d with
  | none => rw [renameData_none hc, renameData_none hc]
  | some m =>
    have h2 : classifyData env ({ d with name := m.newName } : NodeData) = some m := by
      rw [classifyData_name_update]; exact hc
    rw [renameData_some hc, renameData_some h2]

theorem stagedPure_cons (env : Resolvers) (d : NodeData) (rest : List NodeData) :
    stagedPure env (d :: rest) =
      (match classifyData env d with
       | some m => [(⟨{ d with name := m.newName }, m⟩ : Staged)]
       | none => []) ++ stagedPure env rest := by
  simp only [stagedPure, List.filterMap_cons]
  cases classifyData env d <;> simp

theorem stagedPure_renamed (env : Resolvers) (ds : List NodeData) :
    stagedPure env (ds.map (renameData env)) = stagedPure env ds := by
  induction ds with
  | nil => rfl
  | cons d rest ih =>
    rw [List.map_cons, stagedPure_cons, stagedPure_cons, ih, classifyData_renameData]
    cases hc : classifyData env d with
    | none => rfl
    | some m => rw [renameData_some hc]

theorem renamedCountPure_renamed (env : Resolvers) (ds : List NodeData) :
    renamedCountPure env (ds.map (renameData env)) = 0 := by
  induction ds with
  | nil => rfl
  | cons d rest ih =>
    simp only [List.map_cons, renamedCountPure, List.sum_cons] at *
    rw [ih, classifyData_renameData]
    cases hc : classifyData env d with
    | none => rfl
    | some m =>
      have : (renameData env d).name = m.newName := by rw [renameData_some hc]
      simp [this]

/-- The rename the first pass applies to one collected node (children
untouched, as text nodes are not recursed into). -/
def renameNodeTop (env : Resolvers) : Node → Node
  | .mk d cs => .mk (renameData env d) cs

theorem findAll_rtt (env : Resolvers) :
    ∀ t, findAllTextNodes (renameTextTree env t) =
      (findAllTextNodes t).map (renameNodeTop env) := by
  refine nodeInduction _
    (fun l => findAllTextNodesList (renameTextTreeList env l) =
      (findAllTextNodesList l).map (renameNodeTop env)) ?_ ?_ ?_
  · intro d cs hq
    cases hv : d.visible with
    | false => simp [renameTextTree, findAllTextNodes, hv]
    | true =>
      by_cases ht : d.type = "TEXT"
      · have hty : (renameData env d).type = "TEXT" := by rw [renameData_type]; exact ht
        simp [renameTextTree, findAllTextNodes, hv, ht, hty, renameData_visible,
          renameNodeTop]
      · simp [renameTextTree, findAllTextNodes, hv, ht, hq]
  · rfl
  · intro c cs hp hq
    rw [renameTextTreeList, findAllTextNodesList, findAllTextNodesList, List.map_append,
      hp, hq]

theorem rtt_ndata_type (env : Resolvers) (t : Node) :
    (ndata (renameTextTree env t)).type = (ndata t).type := by
  cases t with
  | mk d cs =>
    cases hv : d.visible with
    | false => simp [renameTextTree, hv]
    | true =>
      by_cases ht : d.type = "TEXT" <;>
        simp [renameTextTree, hv, ht, ndata, renameData_type]

theorem collect_rtr (env : Resolvers) (sel : List Node) :
    collectTextNodes (sel.map (renameTextRoot env)) =
      (collectTextNodes sel).map (renameNodeTop env) := by
  induction sel with
  | nil => rfl
  | cons root rest ih =>
    rw [List.map_cons, collectTextNodes, collectTextNodes, List.map_append, ih]
    congr 1
    by_cases hc : isContainerType (ndata root).type = true
    · have hrtr : renameTextRoot env root = renameTextTree env root := by
        unfold renameTextRoot; rw [if_pos hc]
      have htype : (ndata (renameTextRoot env root)).type = (ndata root).type := by
        rw [hrtr, rtt_ndata_type]
      rw [htype, if_pos hc, if_pos hc, hrtr]
      exact findAll_rtt env root
    · by_cases ht : (ndata root).type = "TEXT"
      · have hrtr : renameTextRoot env root =
            Node.mk (renameData env (ndata root)) (nchildren root) := by
          unfold renameTextRoot; rw [if_neg hc, if_pos ht]
        have htype : (ndata (renameTextRoot env root)).type = (ndata root).type := by
          rw [hrtr]; simp [ndata, renameData_type]
        rw [htype, if_neg hc, if_pos ht, if_neg hc, if_pos ht, hrtr]
        cases root with
        | mk d cs => simp [renameNodeTop, ndata, nchildren]
      · have hrtr : renameTextRoot env root = root := by
          unfold renameTextRoot; rw [if_neg hc, if_neg ht]
        rw [hrtr, if_neg hc, if_neg ht]
        rfl

theorem rtt_idem (env : Resolvers) :
    ∀ t, renameTextTree env (renameTextTree env t) = renameTextTree env t := by
  refine nodeInduction _
    (fun l => renameTextTreeList env (renameTextTreeList env l) =
      renameTextTreeList env l) ?_ ?_ ?_
  · intro d cs hq
    cases hv : d.visible with
    | false => simp [renameTextTree, hv]
    | true =>
      by_cases ht : d.type = "TEXT"
      · have hty : (renameData env d).type = "TEXT" := by rw [renameData_type]; exact ht
        simp [renameTextTree, hv, ht, hty, renameData_visible, renameData_idem]
      · simp [renameTextTree, hv, ht, hq]
  · rfl
  · intro c cs hp hq
    rw [renameTextTreeList, renameTextTreeList, hp, hq]

theorem rtr_ndata_type (env : Resolvers) (t : Node) :
    (ndata (renameTextRoot env t)).type = (ndata t).type := by
  unfold renameTextRoot
  by_cases hc : isContainerType (ndata t).type = true
  · rw [if_pos hc, rtt_ndata_type]
  · by_cases ht : (ndata t).type = "TEXT"
    · rw [if_neg hc, if_pos ht]; simp [ndata, renameData_type]
    · rw [if_neg hc, if_neg ht]

theorem rtr_idem (env : Resolvers) (t : Node) :
    renameTextRoot env (renameTextRoot env t) = renameTextRoot env t := by
  by_cases hc : isContainerType (ndata t).type = true
  · have hrtr : renameTextRoot env t = renameTextTree env t := by
      unfold renameTextRoot; rw [if_pos hc]
    have hc2 : isContainerType (ndata (renameTextRoot env t)).type = true := by
      rw [rtr_ndata_type]; exact hc
    rw [hrtr] at hc2 ⊢
    unfold renameTextRoot
    rw [if_pos hc2]
    exact rtt_idem env t
  · by_cases ht : (ndata t).type = "TEXT"
    · have hrtr : renameTextRoot env t =
          Node.mk (renameData env (ndata t)) (nchildren t) := by
        unfold renameTextRoot; rw [if_neg hc, if_pos ht]
      rw [hrtr]
      have hty : (ndata (Node.mk (renameData env (ndata t)) (nchildren t))).type =
          (ndata t).type := by
        simp [ndata, renameData_type]
      unfold renameTextRoot
      rw [hty, if_neg hc, if_pos ht]
      simp [ndata, nchildren, renameData_idem]
    · have hrtr : renameTextRoot env t = t := by
        unfold renameTextRoot; rw [if_neg hc, if_neg ht]
      rw [hrtr, hrtr]

theorem map_self_of_eq {α : Type} {l : List α} {f : α → α} (h : ∀ a ∈ l, f a = a) :
    l.map f = l := by
  induction l with
  | nil => rfl
  | cons a rest ih =>
    rw [List.map_cons, h a (List.mem_cons_self a rest),
      ih (fun b hb => h b (List.mem_cons_of_mem _ hb))]

theorem frameRenamed_fixed {l : List Node} (h : ∀ x ∈ l, renameFrames x = (x, 0)) :
    frameRenamedSel l = l ∧ fcountOf l = 0 := by
  constructor
  · exact map_self_of_eq (fun a ha => by rw [h a ha])
  · unfold fcountOf
    refine List.sum_eq_zero ?_
    intro x hx
    obtain ⟨a, ha, hax⟩ := List.mem_map.mp hx
    rw [← hax, h a ha]

theorem map_ndata_rnt (env : Resolvers) (l : List Node) :
    (l.map (renameNodeTop env)).map ndata = (l.map ndata).map (renameData env) := by
  induction l with
  | nil => rfl
  | cons a rest ih =>
    cases a with
    | mk d cs =>
      simp only [List.map_cons, renameNodeTop, ndata]
      rw [ih]

theorem sel1_frames_fixed (sel : List Node) :
    ∀ x ∈ frameRenamedSel sel, renameFrames x = (x, 0) := by
  intro x hx
  unfold frameRenamedSel at hx
  obtain ⟨s, hs, hsx⟩ := List.mem_map.mp hx
  rw [← hsx]
  exact noMatchVis_rf_id _ (noMatchVis_after_rf s)

theorem sel2_frames_fixed (env : Resolvers) (sel : List Node) :
    ∀ x ∈ (frameRenamedSel sel).map (renameTextRoot env), renameFrames x = (x, 0) := by
  intro x hx
  obtain ⟨y, hy, hyx⟩ := List.mem_map.mp hx
  unfold frameRenamedSel at hy
  obtain ⟨s, hs, hsy⟩ := List.mem_map.mp hy
  rw [← hyx]
  refine noMatchVis_rf_id _ (noMatchVis_rtr env y ?_)
  rw [← hsy]
  exact noMatchVis_after_rf s

/-- C7: a second run on the selection as the first run left it renames
nothing further (frame and text rename counts are both zero), reports the
same mismatch list, and leaves the document unchanged. -/
theorem c7_second_run_idempotent (env : Resolvers) (sel : List Node) :
    (runAudit env (runAudit env sel).selection).frameRenamedCount = 0 ∧
    (runAudit env (runAudit env sel).selection).renamedCount = 0 ∧
    (runAudit env (runAudit env sel).selection).mismatched = (runAudit env sel).mismatched ∧
    (runAudit env (runAudit env sel).selection).selection = (runAudit env sel).selection := by
  by_cases h0 : sel.length = 0
  · have hsel : (runAudit env sel).selection = sel := by rw [runAudit_empty env sel h0]
    have hmmE : (runAudit env sel).mismatched = [] := by rw [runAudit_empty env sel h0]
    rw [hsel, hmmE, runAudit_empty env sel h0]
    exact ⟨rfl, rfl, rfl, rfl⟩
  · by_cases h2 : (collectedOf sel).length = 0
    · have hrun := runAudit_noText env sel h0 h2
      have hsel : (runAudit env sel).selection = frameRenamedSel sel := by rw [hrun]
      have hmmE : (runAudit env sel).mismatched = [] := by rw [hrun]
      obtain ⟨hfr, hfc⟩ := frameRenamed_fixed (sel1_frames_fixed sel)
      have h0' : ¬ (frameRenamedSel sel).length = 0 := by
        unfold frameRenamedSel; rw [List.length_map]; exact h0
      have h2' : (collectedOf (frameRenamedSel sel)).length = 0 := by
        unfold collectedOf
        rw [hfr]
        simpa [collectedOf] using h2
      have hrun2 := runAudit_noText env (frameRenamedSel sel) h0' h2'
      rw [hsel, hmmE, hrun2]
      exact ⟨hfc, rfl, rfl, hfr⟩
    · obtain ⟨hsel, hfc1, hrc1, hst1, hmm1⟩ := runAudit_main env sel h0 h2
      obtain ⟨hfr2, hfc2⟩ := frameRenamed_fixed (sel2_frames_fixed env sel)
      have h0'' : ¬ ((frameRenamedSel sel).map (renameTextRoot env)).length = 0 := by
        rw [List.length_map]
        unfold frameRenamedSel
        rw [List.length_map]
        exact h0
      have hcoll2 : collectedOf ((frameRenamedSel sel).map (renameTextRoot env)) =
          (collectedOf sel).map (renameNodeTop env) := by
        unfold collectedOf
        rw [hfr2]
        exact collect_rtr env (frameRenamedSel sel)
      have h2'' : ¬ (collectedOf ((frameRenamedSel sel).map (renameTextRoot env))).length = 0 := by
        rw [hcoll2, List.length_map]
        simpa [collectedOf] using h2
      obtain ⟨hsel2, hfcB, hrcB, hstB, hmmB⟩ := runAudit_main env
        ((frameRenamedSel sel).map (renameTextRoot env)) h0'' h2''
      refine ⟨?_, ?_, ?_, ?_⟩
      · rw [hsel, hfcB, hfc2]
      · rw [hsel, hrcB, hcoll2, map_ndata_rnt, renamedCountPure_renamed]
      · rw [hsel, hmmB, hcoll2, map_ndata_rnt, stagedPure_renamed, hmm1]
      · rw [hsel, hsel2, hfr2]
        refine map_self_of_eq ?_
        intro a ha
        obtain ⟨y, hy, hya⟩ := List.mem_map.mp ha
        rw [← hya]
        exact rtr_idem env y
